import Mathlib

/-!
Verification of the ContentTranslation translation-progress tracker.

This file gives a shallow embedding of the translation tracker of the
ContentTranslation MediaWiki extension, centred on
`modules/mw.cx.TranslationTracker.js` (the provider-split-threshold
variant) and the section-alignment routine of
`modules/translation/ext.cx.translation.js`, and proves or refutes the
claims of the natural-language specification against it.

Modelling conventions:
* JavaScript numbers are modelled by `JsNum`: an exact rational, `NaN`,
  or `+Infinity` (the only non-finite values reachable in the embedded
  code, via division of nonnegative quantities by zero).
* JavaScript strings are Lean `String`s; tokens are `List Char` values.
* The jQuery ULS script-group lookup used by the tokenizer is external
  data (not part of this repository), so a `Language` carries the
  boolean outcome of that lookup.
* The layout engine consulted by the alignment loop is modelled as an
  arbitrary function from the min-heights set by the code to the
  rendered heights it measures.
-/

namespace CX

/-- Model of the JavaScript number values reachable in the embedded code:
an exact rational, NaN, or positive infinity. -/
inductive JsNum where
  | num : ℚ → JsNum
  | nan : JsNum
  | inf : JsNum
deriving DecidableEq

/-- JavaScript division for the nonnegative operands arising in the code:
`0/0` is NaN, `a/0` with `a > 0` is `+Infinity`, otherwise exact. -/
def jsDiv (a b : ℚ) : JsNum :=
  if b = 0 then (if a = 0 then JsNum.nan else JsNum.inf) else JsNum.num (a / b)

/-- JavaScript comparison `x > t` for a JS number against a finite
threshold: NaN compares false, Infinity compares true. -/
def jsGtQ (x : JsNum) (t : ℚ) : Bool :=
  match x with
  | JsNum.num q => decide (t < q)
  | JsNum.nan => false
  | JsNum.inf => true

/-- A language as seen by the tracker.  The source decides CJK-ness by
looking the language's script up in the external jquery.uls data tables
(`$.uls.data.scriptgroups.CJK`); the field `cjk` carries the boolean
outcome of that external lookup. -/
structure Language where
  cjk : Bool
deriving DecidableEq

/-- A language whose script is in the CJK script group. -/
def cjkLanguage : Language := ⟨true⟩

/-- A language whose script is not in the CJK script group. -/
def plainLanguage : Language := ⟨false⟩

/-- The character class of the JavaScript regexp `\s` (whitespace):
space, tab, LF, VT, FF, CR, NBSP, and the Unicode space separators. -/
def isJsSpace (c : Char) : Bool :=
  let v := c.toNat
  v == 0x09 || v == 0x0A || v == 0x0B || v == 0x0C || v == 0x0D || v == 0x20 ||
  v == 0xA0 || v == 0x1680 || (decide (0x2000 ≤ v) && decide (v ≤ 0x200A)) ||
  v == 0x2028 || v == 0x2029 || v == 0x202F || v == 0x205F || v == 0x3000 ||
  v == 0xFEFF

/-- Accumulator-based splitter: collects the maximal runs of characters
on which `p` is false.  `acc` holds the current run, reversed. -/
def splitRunsAux (p : Char → Bool) : List Char → List Char → List (List Char)
  | acc, [] => if acc.isEmpty then [] else [acc.reverse]
  | acc, c :: rest =>
    if p c then
      if acc.isEmpty then splitRunsAux p [] rest
      else acc.reverse :: splitRunsAux p [] rest
    else splitRunsAux p (c :: acc) rest

/-- Maximal runs of characters on which `p` is false, in order.  This is
the behaviour of JavaScript `string.match(/\S+/g) || []` when `p` is
`isJsSpace`. -/
def splitRuns (p : Char → Bool) (l : List Char) : List (List Char) :=
  splitRunsAux p [] l

/-- Embedding of `mw.cx.TranslationTracker.static.tokenise`: CJK-script
languages are split at each character, all other languages into maximal
runs of non-whitespace characters. -/
def tokenise (s : String) (language : Language) : List (List Char) :=
  if language.cjk then s.toList.map (fun c => [c])
  else splitRuns isJsSpace s.toList

/-- Embedding of
`mw.cx.TranslationTracker.static.calculateSectionTranslationProgress`:
1 for identical strings, 0 when either is empty (JS falsy), otherwise
the ratio of the token counts. -/
def calculateSectionTranslationProgress (string1 string2 : String)
    (language : Language) : JsNum :=
  if string1 = string2 then JsNum.num 1
  else if string1 = "" ∨ string2 = "" then JsNum.num 0
  else jsDiv (tokenise string2 language).length (tokenise string1 language).length

/-- The big-set / small-set designation of
`calculateUnmodifiedContent`: the second token list becomes the big set
only when it is strictly longer. -/
def bigSmallSets (tokens1 tokens2 : List (List Char)) :
    List (List Char) × List (List Char) :=
  if tokens2.length > tokens1.length then (tokens2, tokens1) else (tokens1, tokens2)

/-- Embedding of
`mw.cx.TranslationTracker.static.calculateUnmodifiedContent`: 0 when
either string is empty, 1 when identical, otherwise the big token list
is filtered by membership in the small one and the count is divided by
the big list's length. -/
def calculateUnmodifiedContent (string1 string2 : String)
    (language : Language) : JsNum :=
  if string1 = "" ∨ string2 = "" then JsNum.num 0
  else if string1 = string2 then JsNum.num 1
  else
    let tokens1 := tokenise string1 language
    let tokens2 := tokenise string2 language
    let bs := bigSmallSets tokens1 tokens2
    let unmodifiedTokens := bs.1.filter (fun token => bs.2.contains token)
    jsDiv unmodifiedTokens.length bs.1.length

/-- The ratio described by the words of claim C2: the count of tokens of
the smaller multiset present in the larger one, divided by the larger
multiset's token count.  Stated from the claim for comparison with the
source function `calculateUnmodifiedContent`. -/
def claimSmallSetUnmodifiedContent (string1 string2 : String)
    (language : Language) : JsNum :=
  if string1 = "" ∨ string2 = "" then JsNum.num 0
  else if string1 = string2 then JsNum.num 1
  else
    let tokens1 := tokenise string1 language
    let tokens2 := tokenise string2 language
    let bs := bigSmallSets tokens1 tokens2
    let unmodifiedTokens := bs.2.filter (fun token => bs.1.contains token)
    jsDiv unmodifiedTokens.length bs.1.length

/-- An html/text content pair as stored in a section state.  A JS
`null` html is `none`; the text field is the plain-text rendering of the
html. -/
structure ContentPair where
  html : Option String
  text : String
deriving DecidableEq

/-- JavaScript falsiness of a stored html value (`null` or the empty
string). -/
def jsFalsyHtml (h : Option String) : Bool := h = none || h = some ""

/-- Modelled from the spec: `mw.cx.dm.SectionState` (its source file is
not part of this snapshot; only its callers in the tracker are).  Per
spec section 3 it is a per-section record of the immutable source
content, the frozen provider baseline `unmodifiedMT`, the nullable
current `userTranslation`, the provider identifier (a named MT engine,
the literal "source", or null), and the derived metrics. -/
structure SectionState where
  sectionNumber : Int
  source : ContentPair
  unmodifiedMT : ContentPair
  userTranslation : ContentPair
  currentProvider : Option String
  unmodifiedPercentage : JsNum
  translationProgress : JsNum
deriving DecidableEq

/-- Modelled from the spec: the section-state setter for
`userTranslation`; a null argument clears the field (spec section 3:
nullable, cleared on provider change), a string argument stores the html
together with its plain-text rendering `textOf`. -/
def setUserTranslation (textOf : String → String) (st : SectionState)
    (x : Option String) : SectionState :=
  { st with userTranslation :=
      match x with
      | none => { html := none, text := "" }
      | some h => { html := some h, text := textOf h } }

/-- Modelled from the spec: the section-state setter for `unmodifiedMT`
(spec section 3: content as first produced by a provider, captured from
the given html). -/
def setUnmodifiedMT (textOf : String → String) (st : SectionState)
    (h : String) : SectionState :=
  { st with unmodifiedMT := { html := some h, text := textOf h } }

/-- The tracker configuration taken from the constructor arguments. -/
structure TrackerConfig where
  sourceLanguage : Language
  targetLanguage : Language

/-- Constructor constant: tolerated unmodified machine translation. -/
def unmodifiedMTThreshold : ℚ := 8/10

/-- Constructor constant: tolerated unmodified text copied from the
source paragraph. -/
def unmodifiedSourceThreshold : ℚ := 6/10

/-- Embedding of `getMTThresholdForSection`: the source-copy threshold
when the current provider is the literal string "source", the MT
threshold otherwise. -/
def getMTThresholdForSection (sectionState : SectionState) : ℚ :=
  if sectionState.currentProvider = some "source" then unmodifiedSourceThreshold
  else unmodifiedMTThreshold

/-- Embedding of `validateForMTAbuse`: sections whose source text has
fewer than 10 tokens are excluded; otherwise the stored unmodified
percentage is compared against the provider-dependent threshold. -/
def validateForMTAbuse (cfg : TrackerConfig) (sectionState : SectionState) : Bool :=
  let sourceTokens := tokenise sectionState.source.text cfg.sourceLanguage
  if sourceTokens.length < 10 then false
  else jsGtQ sectionState.unmodifiedPercentage (getMTThresholdForSection sectionState)

/-- Embedding of `updateSectionProgress`: recompute the two derived
metrics of a section state from its stored contents. -/
def updateSectionProgress (cfg : TrackerConfig) (st : SectionState) : SectionState :=
  let unmodifiedPercentage := calculateUnmodifiedContent
    st.unmodifiedMT.text st.userTranslation.text cfg.targetLanguage
  let progress := calculateSectionTranslationProgress
    st.source.text st.userTranslation.text cfg.targetLanguage
  { st with unmodifiedPercentage := unmodifiedPercentage,
            translationProgress := progress }

/-- The live editor node a section number resolves to:
`getTargetSectionNodeFromSectionNumber` can return null (`missing`), a
placeholder node created by undo (`placeholder`), or a CX section node
carrying its declared content origin (`getOriginalContentSource`), its
rendered inner html, and its child node type name. -/
inductive LiveSection where
  | missing
  | placeholder
  | node (origin : Option String) (html : String) (childType : String)

/-- The section child types excluded from MT-abuse validation
(`isExcludedFromValidation`). -/
def excludedTypes : List String :=
  ["cxBlockImage", "mwBlockImage", "cxTransclusionBlock", "mwTransclusionBlock",
   "mwReferencesList", "mwTable", "list", "mwHeading"]

/-- Mutable tracker state: the section-state map and the three queues. -/
structure Tracker where
  sections : Int → SectionState
  validationDelayQueue : List Int
  changeQueue : List Int
  saveQueue : List Int

/-- One entry of the validation-queue drain: a CX section node that is
not of an excluded type gets an MT-abuse decision; excluded nodes are
skipped.  (On a missing or placeholder node the source would fail inside
`isExcludedFromValidation`; that case is never exercised here.) -/
def validationStep (cfg : TrackerConfig) (env : Int → LiveSection)
    (sections : Int → SectionState) (n : Int) : Option (Int × Bool) :=
  match env n with
  | LiveSection.node _ _ childType =>
      if excludedTypes.contains childType then none
      else some (n, validateForMTAbuse cfg (sections n))
  | _ => none

/-- Embedding of `processValidationQueue`: the delay queue is drained
from its end (reverse-insertion order), every entry is removed, and the
non-excluded section nodes receive an MT-abuse decision. -/
def drainValidationQueue (cfg : TrackerConfig) (env : Int → LiveSection)
    (sections : Int → SectionState) (queue : List Int) : List (Int × Bool) :=
  queue.reverse.filterMap (validationStep cfg env sections)

/-- Embedding of `pushToValidationQueue`: insert-if-absent. -/
def pushToValidationQueue (queue : List Int) (n : Int) : List Int :=
  if queue.contains n then queue else queue ++ [n]

/-- Observable effects of one `processSectionChange` call:
the MT-abuse decisions taken during an immediate validation-queue flush,
whether the debounced `validationScheduler` was invoked, and whether
`setUserTranslation(null)` was called to clear the stored user
translation. -/
structure ChangeEffects where
  validated : List (Int × Bool)
  scheduledValidation : Bool
  clearedUserTranslation : Bool
deriving DecidableEq

/-- Embedding of `processSectionChange` (the provider-split variant):
given the live-node environment `env` and the plain-text rendering
`textOf` of the external converter, process one section change.  The
call on the section model `setHasUserModifications` is an external side
effect with no bearing on tracker state and is not recorded. -/
def processSectionChange (cfg : TrackerConfig) (env : Int → LiveSection)
    (textOf : String → String) (tracker : Tracker) (sectionNumber : Int) :
    Tracker × ChangeEffects :=
  match env sectionNumber with
  | LiveSection.missing => (tracker, ⟨[], false, false⟩)
  | LiveSection.placeholder =>
      let st := tracker.sections sectionNumber
      let st := setUserTranslation textOf { st with currentProvider := none } (some "")
      let tracker' := { tracker with
        sections := fun m => if m = sectionNumber then st else tracker.sections m,
        saveQueue := tracker.saveQueue.erase sectionNumber,
        validationDelayQueue := tracker.validationDelayQueue.erase sectionNumber }
      (tracker', ⟨[], false, false⟩)
  | LiveSection.node newMTProvider newContent _ =>
      let st0 := tracker.sections sectionNumber
      let freshTranslation := st0.currentProvider ≠ newMTProvider
      let st1 := if freshTranslation then
          setUserTranslation textOf { st0 with currentProvider := newMTProvider } none
        else st0
      let existingContent := st1.userTranslation
      let st2 := if jsFalsyHtml st1.unmodifiedMT.html then
          setUnmodifiedMT textOf { st1 with currentProvider := newMTProvider } newContent
        else st1
      let st3 := if existingContent.html ≠ some newContent then
          setUserTranslation textOf st2 (some newContent)
        else st2
      let st4 := updateSectionProgress cfg st3
      let sections' := fun m => if m = sectionNumber then st4 else tracker.sections m
      if freshTranslation then
        let validated := drainValidationQueue cfg env sections' tracker.validationDelayQueue
        let tracker' := { tracker with
          sections := sections',
          validationDelayQueue := pushToValidationQueue [] sectionNumber }
        (tracker', ⟨validated, false, true⟩)
      else
        let tracker' := { tracker with
          sections := sections',
          validationDelayQueue :=
            pushToValidationQueue tracker.validationDelayQueue sectionNumber }
        (tracker', ⟨[], true, false⟩)

/-- The section state produced by the fresh-translation path of
`processSectionChange`: provider reset to the new origin, user
translation cleared and then re-captured from the live content, the MT
baseline captured when absent, and the derived metrics recomputed. -/
def freshProcessedState (cfg : TrackerConfig) (textOf : String → String)
    (st0 : SectionState) (origin : Option String) (newContent : String) : SectionState :=
  let st1 := setUserTranslation textOf { st0 with currentProvider := origin } none
  let st2 := if jsFalsyHtml st1.unmodifiedMT.html then
      setUnmodifiedMT textOf { st1 with currentProvider := origin } newContent
    else st1
  let st3 := if st1.userTranslation.html ≠ some newContent then
      setUserTranslation textOf st2 (some newContent)
    else st2
  updateSectionProgress cfg st3

/-! Section alignment (`keepAlignment` in ext.cx.translation.js).
Rendered heights are produced by the browser layout engine; it is
modelled as an arbitrary function `layout` taking the source and target
min-heights currently set (0 when cleared) to the pair
(source rendered height, target rendered height). -/

/-- Result of the 10px adjustment loop inside `keepAlignment`:
the last common min-height set (none when the loop body never ran), the
final measured target and source heights, the number of iterations of
the loop body, and whether the `steps` counter forced an abort. -/
structure LoopResult where
  lastMin : Option ℚ
  finalTgt : ℚ
  finalSrc : ℚ
  steps : Nat
  aborted : Bool
deriving DecidableEq

/-- The while-loop of `keepAlignment`: while the measured heights
differ, add 10 to the last measured target height, set both
min-heights to it, re-measure, and break (logging) when the `steps`
counter reaches its bound.  `fuel` is the number of loop-body
iterations still allowed; the code enters with 11 (the body checks
`steps++ === 10` after running, so it runs at most 11 times). -/
def alignLoop (layout : ℚ → ℚ → ℚ × ℚ) : Nat → ℚ → ℚ → LoopResult
  | 0, tgtH, srcH =>
      if tgtH = srcH then ⟨none, tgtH, srcH, 0, false⟩
      else ⟨none, tgtH, srcH, 0, true⟩
  | Nat.succ fuel, tgtH, srcH =>
      if tgtH = srcH then ⟨none, tgtH, srcH, 0, false⟩
      else
        let m := tgtH + 10
        let hs := layout m m
        match fuel with
        | 0 => ⟨some m, hs.2, hs.1, 1, true⟩
        | Nat.succ _ =>
            let r := alignLoop layout fuel hs.2 hs.1
            ⟨some (r.lastMin.getD m), r.finalTgt, r.finalSrc, r.steps + 1, r.aborted⟩

/-- Outcome of one `keepAlignment` invocation: whether the element was
skipped (table), the final min-heights of the two panes, the number of
10px loop iterations, and whether the loop aborted at its bound. -/
structure AlignOutcome where
  skipped : Bool
  srcMin : ℚ
  tgtMin : ℚ
  loopSteps : Nat
  aborted : Bool
deriving DecidableEq

/-- Embedding of `keepAlignment`: tables are skipped; the source pane's
min-height is cleared and both panes measured; if the source renders
shorter than the target, the source min-height is set to the target
height and the 10px loop runs on both panes; if the target renders
shorter, its min-height is set to the source height in a single
assignment; equal heights leave everything as measured. -/
def keepAlignment (layout : ℚ → ℚ → ℚ × ℚ) (isTable : Bool)
    (srcMin0 tgtMin0 : ℚ) : AlignOutcome :=
  if isTable then ⟨true, srcMin0, tgtMin0, 0, false⟩
  else
    let h0 := layout 0 tgtMin0
    let srcH := h0.1
    let tgtH := h0.2
    if srcH < tgtH then
      let h1 := layout tgtH tgtMin0
      let r := alignLoop layout 11 h1.2 h1.1
      ⟨false, r.lastMin.getD tgtH, r.lastMin.getD tgtMin0, r.steps, r.aborted⟩
    else if srcH > tgtH then ⟨false, 0, srcH, 0, false⟩
    else ⟨false, 0, tgtMin0, 0, false⟩

/-- The ideal box-model layout: each pane renders at the maximum of its
natural height and its min-height. -/
def boxLayout (srcNatural tgtNatural : ℚ) : ℚ → ℚ → ℚ × ℚ :=
  fun srcMin tgtMin => (max srcNatural srcMin, max tgtNatural tgtMin)

/-! Issue registry (`setTranslationIssues`, lines 566-601): the ordered
array `nodesWithIssues` of section numbers and the sentinel identifiers
"title" and "global". -/

/-- An identifier in `nodesWithIssues`: a numeric section number or one
of the special string values. -/
inductive NodeId where
  | global
  | title
  | section (n : Int)
deriving DecidableEq

/-- The order realised by the comparator `sortLettersAndNumbers`:
non-numeric sentinels first ("global" lexicographically before "title"),
then section numbers in ascending order. -/
def nodeLe (a b : NodeId) : Bool :=
  match a, b with
  | NodeId.global, _ => true
  | NodeId.title, NodeId.global => false
  | NodeId.title, _ => true
  | NodeId.section _, NodeId.global => false
  | NodeId.section _, NodeId.title => false
  | NodeId.section n, NodeId.section m => decide (n ≤ m)

/-- Strict version of `nodeLe`. -/
def nodeLt (a b : NodeId) : Bool := nodeLe a b && !(nodeLe b a)

/-- The order of `nodeLe` as a relation, for use with sorting lemmas. -/
def nodeLeProp (a b : NodeId) : Prop := nodeLe a b = true

instance : DecidableRel nodeLeProp :=
  fun a b => inferInstanceAs (Decidable (nodeLe a b = true))

/-- Boolean check that a list is strictly ordered by `nodeLt` -- the
invariant of `nodesWithIssues`: duplicate-free, sentinels before
numbers, numbers ascending. -/
def isOrderedNodes : List NodeId → Bool
  | [] => true
  | [_] => true
  | a :: b :: rest => nodeLt a b && isOrderedNodes (b :: rest)

/-- Embedding of `setTranslationIssues` (lines 566-601): a present id
is removed when `state` is false and left alone when true; an absent id
is appended when `state` is true and the array re-sorted with the
comparator order. -/
def setTranslationIssues (nodesWithIssues : List NodeId) (id : NodeId)
    (state : Bool) : List NodeId :=
  if nodesWithIssues.contains id then
    if !state then nodesWithIssues.erase id else nodesWithIssues
  else if !state then nodesWithIssues
  else List.insertionSort nodeLeProp (nodesWithIssues ++ [id])

/-! Helper views on calculateUnmodifiedContent and concrete instances
used by witnesses and counterexamples. -/

/-- The larger of the two token multisets of a string pair. -/
def bigSetOf (s1 s2 : String) (lang : Language) : List (List Char) :=
  (bigSmallSets (tokenise s1 lang) (tokenise s2 lang)).1

/-- The smaller of the two token multisets of a string pair. -/
def smallSetOf (s1 s2 : String) (lang : Language) : List (List Char) :=
  (bigSmallSets (tokenise s1 lang) (tokenise s2 lang)).2

/-- The tokens counted as unmodified by `calculateUnmodifiedContent`:
the members of the larger multiset that occur in the smaller one. -/
def unmodifiedTokensOf (s1 s2 : String) (lang : Language) : List (List Char) :=
  (bigSetOf s1 s2 lang).filter (fun token => (smallSetOf s1 s2 lang).contains token)

/-- A tracker configuration over two non-CJK languages. -/
def plainConfig : TrackerConfig := ⟨plainLanguage, plainLanguage⟩

/-- A source text of exactly ten tokens. -/
def tenTokenText : String := "t1 t2 t3 t4 t5 t6 t7 t8 t9 t10"

/-- A section whose content was copied from the source (provider the
literal "source") with an unmodified percentage of 0.65 and a ten-token
source text. -/
def sourceCopiedState65 : SectionState :=
  { sectionNumber := 1
    source := { html := some "<p>s</p>", text := tenTokenText }
    unmodifiedMT := { html := some "<p>m</p>", text := "m" }
    userTranslation := { html := some "<p>u</p>", text := "u" }
    currentProvider := some "source"
    unmodifiedPercentage := JsNum.num (65/100)
    translationProgress := JsNum.num 1 }

/-- The same section under a named MT provider instead of "source". -/
def mtProviderState65 : SectionState :=
  { sourceCopiedState65 with currentProvider := some "Apertium" }

/-- The source-copied section with a three-token source text (below the
ten-token floor). -/
def shortSourceState65 : SectionState :=
  { sourceCopiedState65 with
    source := { html := some "<p>s</p>", text := "one two three" } }

/-- A live-node environment in which every section number resolves to a
CX section node declaring content origin "Google". -/
def googleEnv : Int → LiveSection :=
  fun _ => LiveSection.node (some "Google") "<p>hello</p>" "paragraph"

/-- A concrete plain-text rendering for the external html-to-text
conversion. -/
def idTextOf : String → String := fun s => s

/-- A section state whose stored provider ("Apertium") differs from the
declared origin in `googleEnv`. -/
def apertiumState : SectionState :=
  { sectionNumber := 1
    source := { html := some "<p>s</p>", text := tenTokenText }
    unmodifiedMT := { html := some "<p>mt</p>", text := "mt text here" }
    userTranslation := { html := some "<p>u</p>", text := "user text" }
    currentProvider := some "Apertium"
    unmodifiedPercentage := JsNum.num (9/10)
    translationProgress := JsNum.num 1 }

/-- A tracker whose section 1 is already awaiting delayed validation. -/
def queuedTracker : Tracker :=
  { sections := fun _ => apertiumState
    validationDelayQueue := [1]
    changeQueue := []
    saveQueue := [] }

/-- The same tracker with an empty validation delay queue. -/
def idleTracker : Tracker :=
  { queuedTracker with validationDelayQueue := [] }

/-! Theorems. -/

lemma tokenise_empty_string (lang : Language) : tokenise "" lang = [] := by
  rcases lang with ⟨b⟩
  cases b <;> rfl

/-- C10: with both inputs empty, `calculateSectionTranslationProgress`
returns 1 (its identical-strings check comes first) while
`calculateUnmodifiedContent` returns 0 (its emptiness check comes
first), so the two derived metrics disagree on the empty/empty edge
case. -/
theorem empty_inputs_progress_one_unmodified_zero (lang : Language) :
    calculateSectionTranslationProgress "" "" lang = JsNum.num 1 ∧
    calculateUnmodifiedContent "" "" lang = JsNum.num 0 :=
  ⟨by simp [calculateSectionTranslationProgress],
   by simp [calculateUnmodifiedContent]⟩

/-- C4: `calculateSectionTranslationProgress` returns 1 for identical
strings, 0 when either string is empty (and they differ), and otherwise
the ratio of the token count of the current text to that of the source
text; ratios above 1 are returned unclamped, so in particular the
progress of a pair with more current than source tokens exceeds 1. -/
theorem calculateSectionTranslationProgress_correct (s1 s2 : String) (lang : Language) :
    (s1 = s2 → calculateSectionTranslationProgress s1 s2 lang = JsNum.num 1) ∧
    (s1 ≠ s2 → (s1 = "" ∨ s2 = "") →
      calculateSectionTranslationProgress s1 s2 lang = JsNum.num 0) ∧
    (s1 ≠ s2 → ¬(s1 = "" ∨ s2 = "") →
      calculateSectionTranslationProgress s1 s2 lang =
        jsDiv ((tokenise s2 lang).length : ℚ) ((tokenise s1 lang).length : ℚ)) ∧
    (s1 ≠ s2 → 0 < (tokenise s1 lang).length →
      (tokenise s1 lang).length < (tokenise s2 lang).length →
      ∃ q : ℚ, calculateSectionTranslationProgress s1 s2 lang = JsNum.num q ∧ 1 < q) := by
  refine ⟨?_, ?_, ?_, ?_⟩
  · intro h
    simp [calculateSectionTranslationProgress, h]
  · intro hne he
    unfold calculateSectionTranslationProgress
    rw [if_neg hne, if_pos he]
  · intro hne he
    unfold calculateSectionTranslationProgress
    rw [if_neg hne, if_neg he]
  · intro hne h1 h2
    have hs1 : ¬(s1 = "" ∨ s2 = "") := by
      rintro (h | h) <;> subst h
      · rw [tokenise_empty_string] at h1; simp at h1
      · rw [tokenise_empty_string] at h2; simp at h2
    have hpos : (0 : ℚ) < ((tokenise s1 lang).length : ℚ) := by
      exact_mod_cast h1
    refine ⟨((tokenise s2 lang).length : ℚ) / ((tokenise s1 lang).length : ℚ), ?_, ?_⟩
    · unfold calculateSectionTranslationProgress
      rw [if_neg hne, if_neg hs1]
      unfold jsDiv
      rw [if_neg (ne_of_gt hpos)]
    · rw [one_lt_div hpos]
      exact_mod_cast h2

/-- Witness for C4 at concrete inputs. -/
theorem calculateSectionTranslationProgress_correct_witness :
    calculateSectionTranslationProgress "abc" "abc" plainLanguage = JsNum.num 1 ∧
    calculateSectionTranslationProgress "" "x y" plainLanguage = JsNum.num 0 ∧
    (∃ q : ℚ,
      calculateSectionTranslationProgress "a b" "c d e" plainLanguage = JsNum.num q ∧
      1 < q) :=
  ⟨(calculateSectionTranslationProgress_correct "abc" "abc" plainLanguage).1 rfl,
   (calculateSectionTranslationProgress_correct "" "x y" plainLanguage).2.1
     (by decide) (Or.inl rfl),
   (calculateSectionTranslationProgress_correct "a b" "c d e" plainLanguage).2.2.2
     (by decide) (by decide) (by decide)⟩

/-- C5: a section whose source text tokenizes to fewer than 10 tokens is
never flagged by `validateForMTAbuse`, regardless of its unmodified
percentage, provider, or threshold. -/
theorem validateForMTAbuse_short_section (cfg : TrackerConfig) (st : SectionState)
    (h : (tokenise st.source.text cfg.sourceLanguage).length < 10) :
    validateForMTAbuse cfg st = false := by
  unfold validateForMTAbuse
  simp [h]

/-- Witness for C5: a three-token source section with unmodified
percentage 0.65 is not flagged. -/
theorem validateForMTAbuse_short_section_witness :
    (tokenise shortSourceState65.source.text plainConfig.sourceLanguage).length < 10 ∧
    validateForMTAbuse plainConfig shortSourceState65 = false :=
  ⟨by decide, validateForMTAbuse_short_section plainConfig shortSourceState65 (by decide)⟩

/-- Counterexample to C1 as stated: for a section state with provider
"source", unmodified percentage 0.65 and a three-token source text, the
unmodified percentage exceeds the provider threshold (0.6) and yet
`validateForMTAbuse` does not flag the section, because of the
ten-token minimum length floor the claim omits.  So the check does not
flag "exactly when" the percentage exceeds the threshold. -/
theorem validateForMTAbuse_not_iff_threshold :
    jsGtQ shortSourceState65.unmodifiedPercentage
      (getMTThresholdForSection shortSourceState65) = true ∧
    validateForMTAbuse plainConfig shortSourceState65 = false := by
  constructor
  · simp only [shortSourceState65, sourceCopiedState65, getMTThresholdForSection,
      unmodifiedSourceThreshold, jsGtQ]
    norm_num
  · have h : (tokenise shortSourceState65.source.text
        plainConfig.sourceLanguage).length < 10 := by decide
    unfold validateForMTAbuse
    simp [h]

/-- C1 (amended): for every section state whose source text reaches the
ten-token floor, `validateForMTAbuse` flags the section exactly when its
unmodified percentage exceeds the provider-dependent threshold -- 0.6
when the current provider is the literal "source" and 0.8 for any other
provider; in particular at unmodified percentage 0.65 such a section is
flagged precisely when its provider is "source". -/
theorem validateForMTAbuse_threshold (cfg : TrackerConfig) (st : SectionState)
    (h : 10 ≤ (tokenise st.source.text cfg.sourceLanguage).length) :
    validateForMTAbuse cfg st =
      jsGtQ st.unmodifiedPercentage (getMTThresholdForSection st) ∧
    getMTThresholdForSection st =
      (if st.currentProvider = some "source" then (6 : ℚ)/10 else (8 : ℚ)/10) ∧
    (st.unmodifiedPercentage = JsNum.num (65/100) →
      (validateForMTAbuse cfg st = true ↔ st.currentProvider = some "source")) := by
  have hnot : ¬((tokenise st.source.text cfg.sourceLanguage).length < 10) := by omega
  refine ⟨?_, ?_, ?_⟩
  · unfold validateForMTAbuse
    simp [hnot]
  · unfold getMTThresholdForSection unmodifiedSourceThreshold unmodifiedMTThreshold
    rfl
  · intro hp
    have hval : validateForMTAbuse cfg st =
        jsGtQ st.unmodifiedPercentage (getMTThresholdForSection st) := by
      unfold validateForMTAbuse
      simp [hnot]
    rw [hval, hp]
    by_cases hsrc : st.currentProvider = some "source"
    · simp only [getMTThresholdForSection, if_pos hsrc, jsGtQ,
        unmodifiedSourceThreshold, hsrc]
      norm_num
    · simp only [getMTThresholdForSection, if_neg hsrc, jsGtQ,
        unmodifiedMTThreshold]
      simp [hsrc]
      norm_num

/-- Witness for C1 (amended): a ten-token source section at percentage
0.65 is flagged under provider "source" and not under "Apertium". -/
theorem validateForMTAbuse_threshold_witness :
    10 ≤ (tokenise sourceCopiedState65.source.text plainConfig.sourceLanguage).length ∧
    validateForMTAbuse plainConfig sourceCopiedState65 = true ∧
    validateForMTAbuse plainConfig mtProviderState65 = false := by
  refine ⟨by decide, ?_, ?_⟩
  · exact ((validateForMTAbuse_threshold plainConfig sourceCopiedState65
      (by decide)).2.2 rfl).mpr rfl
  · have h : ¬((tokenise mtProviderState65.source.text
        plainConfig.sourceLanguage).length < 10) := by decide
    have hprov : mtProviderState65.currentProvider ≠ some "source" := by decide
    simp only [validateForMTAbuse, h, if_false]
    rw [show mtProviderState65.unmodifiedPercentage = JsNum.num (65/100) from rfl,
      show getMTThresholdForSection mtProviderState65 = unmodifiedMTThreshold from
        by simp [getMTThresholdForSection, hprov]]
    simp only [jsGtQ, unmodifiedMTThreshold]
    norm_num

lemma jsDiv_eq_num (a b q : ℚ) (hb : b ≠ 0) (h : a / b = q) :
    jsDiv a b = JsNum.num q := by
  unfold jsDiv
  rw [if_neg hb, h]

lemma calculateUnmodifiedContent_else (s1 s2 : String) (lang : Language)
    (he : ¬(s1 = "" ∨ s2 = "")) (hne : s1 ≠ s2) :
    calculateUnmodifiedContent s1 s2 lang =
      jsDiv ((unmodifiedTokensOf s1 s2 lang).length : ℚ)
        ((bigSetOf s1 s2 lang).length : ℚ) := by
  simp only [calculateUnmodifiedContent, if_neg he, if_neg hne,
    unmodifiedTokensOf, bigSetOf, smallSetOf]

/-- Counterexample to C2 as stated: on "a a b c" against "a d" the
claim's formula (tokens of the smaller multiset present in the larger,
over the larger count) gives 1/4, but the code filters the larger
multiset by membership in the smaller and returns 2/4 = 1/2.  Also, for
two distinct whitespace-only strings both token lists are empty and the
result is the JS division 0/0 = NaN, not a value in the unit
interval. -/
theorem calculateUnmodifiedContent_counterexample :
    calculateUnmodifiedContent "a a b c" "a d" plainLanguage = JsNum.num (1/2) ∧
    claimSmallSetUnmodifiedContent "a a b c" "a d" plainLanguage = JsNum.num (1/4) ∧
    calculateUnmodifiedContent " " "  " plainLanguage = JsNum.nan := by
  have h1 : tokenise "a a b c" plainLanguage = [['a'], ['a'], ['b'], ['c']] := by decide
  have h2 : tokenise "a d" plainLanguage = [['a'], ['d']] := by decide
  refine ⟨?_, ?_, ?_⟩
  · have h : calculateUnmodifiedContent "a a b c" "a d" plainLanguage =
        jsDiv ((2 : Nat) : ℚ) ((4 : Nat) : ℚ) := by
      simp +decide [calculateUnmodifiedContent, bigSmallSets, h1, h2]
    rw [h]
    exact jsDiv_eq_num _ _ _ (by norm_num) (by norm_num)
  · have h : claimSmallSetUnmodifiedContent "a a b c" "a d" plainLanguage =
        jsDiv ((1 : Nat) : ℚ) ((4 : Nat) : ℚ) := by
      simp +decide [claimSmallSetUnmodifiedContent, bigSmallSets, h1, h2]
    rw [h]
    exact jsDiv_eq_num _ _ _ (by norm_num) (by norm_num)
  · have h3 : tokenise " " plainLanguage = [] := by decide
    have h4 : tokenise "  " plainLanguage = [] := by decide
    simp +decide [calculateUnmodifiedContent, bigSmallSets, h3, h4, jsDiv]

/-- C2 (amended): `calculateUnmodifiedContent` returns 0 when either
input is empty and 1 when the inputs are identical; otherwise it equals
the count of tokens of the larger token multiset that appear anywhere in
the smaller one, divided by the larger multiset's count, and lies in
the unit interval whenever the larger multiset is nonempty; when both
strings tokenize to no tokens the result is NaN. -/
theorem calculateUnmodifiedContent_correct (s1 s2 : String) (lang : Language) :
    ((s1 = "" ∨ s2 = "") → calculateUnmodifiedContent s1 s2 lang = JsNum.num 0) ∧
    (¬(s1 = "" ∨ s2 = "") → s1 = s2 →
      calculateUnmodifiedContent s1 s2 lang = JsNum.num 1) ∧
    (¬(s1 = "" ∨ s2 = "") → s1 ≠ s2 → 0 < (bigSetOf s1 s2 lang).length →
      ∃ q : ℚ, calculateUnmodifiedContent s1 s2 lang = JsNum.num q ∧
        q = ((unmodifiedTokensOf s1 s2 lang).length : ℚ) /
            ((bigSetOf s1 s2 lang).length : ℚ) ∧
        0 ≤ q ∧ q ≤ 1) ∧
    (¬(s1 = "" ∨ s2 = "") → s1 ≠ s2 → (bigSetOf s1 s2 lang).length = 0 →
      calculateUnmodifiedContent s1 s2 lang = JsNum.nan) := by
  have hbranch := calculateUnmodifiedContent_else s1 s2 lang
  refine ⟨?_, ?_, ?_, ?_⟩
  · intro h
    unfold calculateUnmodifiedContent
    rw [if_pos h]
  · intro he heq
    unfold calculateUnmodifiedContent
    rw [if_neg he, if_pos heq]
  · intro he hne hpos
    have hb : ((bigSetOf s1 s2 lang).length : ℚ) ≠ 0 := by
      exact_mod_cast Nat.pos_iff_ne_zero.mp hpos
    have hle : (unmodifiedTokensOf s1 s2 lang).length ≤ (bigSetOf s1 s2 lang).length :=
      List.length_filter_le _ _
    refine ⟨((unmodifiedTokensOf s1 s2 lang).length : ℚ) /
      ((bigSetOf s1 s2 lang).length : ℚ), ?_, rfl, ?_, ?_⟩
    · rw [hbranch he hne]
      unfold jsDiv
      rw [if_neg hb]
    · positivity
    · rw [div_le_one (by exact_mod_cast hpos)]
      exact_mod_cast hle
  · intro he hne hzero
    have hbig : bigSetOf s1 s2 lang = [] := List.eq_nil_of_length_eq_zero hzero
    rw [hbranch he hne]
    have hfilter : unmodifiedTokensOf s1 s2 lang = [] := by
      unfold unmodifiedTokensOf
      rw [hbig]
      rfl
    rw [hfilter, hzero]
    unfold jsDiv
    simp

/-- Witness for C2 (amended) at concrete inputs. -/
theorem calculateUnmodifiedContent_correct_witness :
    calculateUnmodifiedContent "" "x" plainLanguage = JsNum.num 0 ∧
    (∃ q : ℚ, calculateUnmodifiedContent "x a" "a y z" plainLanguage = JsNum.num q ∧
      q = ((unmodifiedTokensOf "x a" "a y z" plainLanguage).length : ℚ) /
          ((bigSetOf "x a" "a y z" plainLanguage).length : ℚ) ∧
      0 ≤ q ∧ q ≤ 1) ∧
    calculateUnmodifiedContent " " "\t" plainLanguage = JsNum.nan :=
  ⟨(calculateUnmodifiedContent_correct "" "x" plainLanguage).1 (Or.inl rfl),
   (calculateUnmodifiedContent_correct "x a" "a y z" plainLanguage).2.2.1
     (by decide) (by decide) (by decide),
   (calculateUnmodifiedContent_correct " " "\t" plainLanguage).2.2.2
     (by decide) (by decide) (by decide)⟩

lemma bigSmallSets_swap (t1 t2 : List (List Char)) (h : t1.length ≠ t2.length) :
    bigSmallSets t1 t2 = bigSmallSets t2 t1 := by
  unfold bigSmallSets
  rcases Nat.lt_or_ge t1.length t2.length with hlt | hge
  · rw [if_pos hlt, if_neg (by omega)]
  · rw [if_neg (by omega), if_pos (by omega)]

/-- Counterexample to C3 as stated: swapping the arguments of
`calculateUnmodifiedContent` changes the result when the two token
multisets have equal sizes, because no swap occurs and the filtered set
is always the first: "a a" against "a b" yields 2/2 = 1 but "a b"
against "a a" yields 1/2. -/
theorem calculateUnmodifiedContent_not_symmetric :
    calculateUnmodifiedContent "a a" "a b" plainLanguage = JsNum.num 1 ∧
    calculateUnmodifiedContent "a b" "a a" plainLanguage = JsNum.num (1/2) := by
  have h1 : tokenise "a a" plainLanguage = [['a'], ['a']] := by decide
  have h2 : tokenise "a b" plainLanguage = [['a'], ['b']] := by decide
  constructor
  · have h : calculateUnmodifiedContent "a a" "a b" plainLanguage =
        jsDiv ((2 : Nat) : ℚ) ((2 : Nat) : ℚ) := by
      simp +decide [calculateUnmodifiedContent, bigSmallSets, h1, h2]
    rw [h]
    exact jsDiv_eq_num _ _ _ (by norm_num) (by norm_num)
  · have h : calculateUnmodifiedContent "a b" "a a" plainLanguage =
        jsDiv ((1 : Nat) : ℚ) ((2 : Nat) : ℚ) := by
      simp +decide [calculateUnmodifiedContent, bigSmallSets, h1, h2]
    rw [h]
    exact jsDiv_eq_num _ _ _ (by norm_num) (by norm_num)

/-- C3 (amended): swapping the two arguments of
`calculateUnmodifiedContent` yields the same value whenever the two
strings tokenize to different token counts (the big-set and small-set
roles are then fixed by size, independent of argument order); equal
token counts can produce different values under a swap. -/
theorem calculateUnmodifiedContent_swap (s1 s2 : String) (lang : Language)
    (h : (tokenise s1 lang).length ≠ (tokenise s2 lang).length) :
    calculateUnmodifiedContent s1 s2 lang = calculateUnmodifiedContent s2 s1 lang := by
  by_cases he : s1 = "" ∨ s2 = ""
  · unfold calculateUnmodifiedContent
    rw [if_pos he, if_pos he.symm]
  · by_cases heq : s1 = s2
    · exact absurd (by rw [heq]) h
    · rw [calculateUnmodifiedContent_else s1 s2 lang he heq,
        calculateUnmodifiedContent_else s2 s1 lang
          (fun hh => he hh.symm) (fun hh => heq hh.symm)]
      unfold unmodifiedTokensOf bigSetOf smallSetOf
      rw [bigSmallSets_swap (tokenise s1 lang) (tokenise s2 lang) h]

/-- Witness for C3 (amended) at concrete inputs of different token
counts. -/
theorem calculateUnmodifiedContent_swap_witness :
    calculateUnmodifiedContent "a b c" "b d" plainLanguage =
      calculateUnmodifiedContent "b d" "a b c" plainLanguage :=
  calculateUnmodifiedContent_swap "a b c" "b d" plainLanguage (by decide)

lemma splitRunsAux_join (p : Char → Bool) (l : List Char) :
    ∀ acc : List Char,
      (splitRunsAux p acc l).flatten = acc.reverse ++ l.filter (fun c => !p c) := by
  induction l with
  | nil =>
      intro acc
      by_cases h : acc.isEmpty
      · simp [splitRunsAux, h, List.isEmpty_iff.mp h]
      · simp [splitRunsAux, h]
  | cons c rest ih =>
      intro acc
      by_cases hc : p c
      · by_cases ha : acc.isEmpty
        · simp [splitRunsAux, hc, ha, ih, List.isEmpty_iff.mp ha]
        · simp [splitRunsAux, hc, ha, ih]
      · simp [splitRunsAux, hc, ih]

lemma splitRunsAux_tokens (p : Char → Bool) (l : List Char) :
    ∀ acc : List Char, (∀ c ∈ acc, p c = false) →
      ∀ t ∈ splitRunsAux p acc l, t ≠ [] ∧ ∀ c ∈ t, p c = false := by
  induction l with
  | nil =>
      intro acc hacc t ht
      by_cases h : acc.isEmpty
      · simp [splitRunsAux, h] at ht
      · simp [splitRunsAux, h] at ht
        subst ht
        constructor
        · simp only [ne_eq, List.reverse_eq_nil_iff]
          intro hnil
          rw [hnil] at h
          simp at h
        · intro c hc
          exact hacc c (List.mem_reverse.mp hc)
  | cons c rest ih =>
      intro acc hacc t ht
      by_cases hc : p c
      · by_cases ha : acc.isEmpty
        · rw [splitRunsAux, if_pos hc, if_pos ha] at ht
          exact ih [] (by simp) t ht
        · rw [splitRunsAux, if_pos hc, if_neg ha] at ht
          rcases List.mem_cons.mp ht with hteq | ht
          · subst hteq
            constructor
            · simp only [ne_eq, List.reverse_eq_nil_iff]
              intro hnil
              rw [hnil] at ha
              simp at ha
            · intro d hd
              exact hacc d (List.mem_reverse.mp hd)
          · exact ih [] (by simp) t ht
      · rw [splitRunsAux, if_neg hc] at ht
        refine ih (c :: acc) ?_ t ht
        intro d hd
        rcases List.mem_cons.mp hd with hdeq | hd
        · subst hdeq
          simpa using hc
        · exact hacc d hd

lemma splitRuns_all_true (p : Char → Bool) (l : List Char)
    (h : ∀ c ∈ l, p c = true) : splitRuns p l = [] := by
  cases hs : splitRuns p l with
  | nil => rfl
  | cons t ts =>
      exfalso
      have htok := (splitRunsAux_tokens p l [] (by simp) t
        (by rw [show splitRunsAux p [] l = t :: ts from hs]; exact List.mem_cons_self t ts)).1
      have hjoin := splitRunsAux_join p l []
      rw [show splitRunsAux p [] l = t :: ts from hs] at hjoin
      have hfilter : l.filter (fun c => !p c) = [] := by
        rw [List.filter_eq_nil_iff]
        intro c hc
        simp [h c hc]
      rw [hfilter] at hjoin
      simp only [List.reverse_nil, List.nil_append, List.flatten_cons] at hjoin
      rcases List.append_eq_nil.mp hjoin with ⟨ht, _⟩
      exact htok ht


lemma splitRuns_join (p : Char → Bool) (l : List Char) :
    (splitRuns p l).flatten = l.filter (fun c => !p c) := by
  simpa using splitRunsAux_join p l []

lemma splitRuns_tokens (p : Char → Bool) (l : List Char) :
    ∀ t ∈ splitRuns p l, t ≠ [] ∧ ∀ c ∈ t, p c = false :=
  splitRunsAux_tokens p l [] (by simp)

/-- Counterexample to C7 as stated: tokenising a whitespace-only string
under a CJK-script language yields one token per character, not the
empty sequence the claim promises for whitespace-only input -- a single
space becomes a single one-character token. -/
theorem tokenise_cjk_whitespace_not_empty :
    tokenise " " cjkLanguage = [[' ']] := by decide

/-- C7 (amended): `tokenise` is a pure total function; for a CJK-script
language it returns one token per character (so a string of N characters
yields exactly N tokens, whitespace included); for any other language it
returns the maximal runs of non-whitespace characters -- every token is
nonempty and whitespace-free, concatenating the tokens recovers exactly
the non-whitespace characters in order, and empty or whitespace-only
input yields the empty sequence.  Empty input also yields the empty
sequence under a CJK language. -/
theorem tokenise_correct (s : String) (lang : Language) :
    (lang.cjk = true → (tokenise s lang).length = s.length) ∧
    (s = "" → tokenise s lang = []) ∧
    (lang.cjk = false →
      (tokenise s lang).flatten = s.toList.filter (fun c => !isJsSpace c) ∧
      (∀ t ∈ tokenise s lang, t ≠ [] ∧ ∀ c ∈ t, isJsSpace c = false) ∧
      ((∀ c ∈ s.toList, isJsSpace c = true) → tokenise s lang = [])) := by
  refine ⟨?_, ?_, ?_⟩
  · intro h
    show (tokenise s lang).length = s.toList.length
    simp [tokenise, h]
  · intro h
    subst h
    exact tokenise_empty_string lang
  · intro h
    simp only [tokenise, h, if_false]
    exact ⟨splitRuns_join isJsSpace s.toList,
      splitRuns_tokens isJsSpace s.toList,
      splitRuns_all_true isJsSpace s.toList⟩

/-- Witness for C7 (amended) at concrete inputs. -/
theorem tokenise_correct_witness :
    (tokenise "ab" cjkLanguage).length = "ab".length ∧
    tokenise "" plainLanguage = [] ∧
    (tokenise " a  b " plainLanguage).flatten =
      " a  b ".toList.filter (fun c => !isJsSpace c) ∧
    tokenise "  " plainLanguage = [] :=
  ⟨(tokenise_correct "ab" cjkLanguage).1 rfl,
   (tokenise_correct "" plainLanguage).2.1 rfl,
   ((tokenise_correct " a  b " plainLanguage).2.2 rfl).1,
   ((tokenise_correct "  " plainLanguage).2.2 rfl).2.2 (by decide)⟩

/-- The strict order of `nodeLt` as a relation. -/
def nodeLtProp (a b : NodeId) : Prop := nodeLt a b = true

instance : DecidableRel nodeLtProp :=
  fun a b => inferInstanceAs (Decidable (nodeLt a b = true))

instance : IsTotal NodeId nodeLeProp := by
  constructor
  intro a b
  cases a <;> cases b <;> simp [nodeLeProp, nodeLe]
  omega

instance : IsTrans NodeId nodeLeProp := by
  constructor
  intro a b c
  cases a <;> cases b <;> cases c <;> simp [nodeLeProp, nodeLe]
  omega

instance : IsTrans NodeId nodeLtProp := by
  constructor
  intro a b c
  cases a <;> cases b <;> cases c <;> simp [nodeLtProp, nodeLt, nodeLe]
  omega

lemma nodeLt_of_le_of_ne {a b : NodeId} (hle : nodeLeProp a b) (hne : a ≠ b) :
    nodeLtProp a b := by
  cases a <;> cases b <;>
    simp_all [nodeLeProp, nodeLtProp, nodeLe, nodeLt]
  omega

lemma ne_of_nodeLt {a b : NodeId} (h : nodeLtProp a b) : a ≠ b := by
  intro heq
  subst heq
  cases a <;> simp [nodeLtProp, nodeLt, nodeLe] at h

lemma isOrderedNodes_iff_chain (l : List NodeId) :
    isOrderedNodes l = true ↔ List.Chain' nodeLtProp l := by
  match l with
  | [] => simp [isOrderedNodes]
  | [a] => simp [isOrderedNodes]
  | a :: b :: rest =>
      rw [show isOrderedNodes (a :: b :: rest) =
          (nodeLt a b && isOrderedNodes (b :: rest)) from rfl]
      rw [Bool.and_eq_true, isOrderedNodes_iff_chain (b :: rest),
        List.chain'_cons]
      exact and_congr_left (fun _ => Iff.rfl)

lemma isOrderedNodes_iff_pairwise (l : List NodeId) :
    isOrderedNodes l = true ↔ l.Pairwise nodeLtProp := by
  rw [isOrderedNodes_iff_chain, List.chain'_iff_pairwise]

lemma pairwise_lt_of_sorted_nodup (l : List NodeId)
    (hs : List.Sorted nodeLeProp l) (hn : l.Nodup) : l.Pairwise nodeLtProp := by
  induction l with
  | nil => exact List.Pairwise.nil
  | cons a rest ih =>
      rw [List.sorted_cons] at hs
      rw [List.nodup_cons] at hn
      refine List.Pairwise.cons ?_ (ih hs.2 hn.2)
      intro b hb
      exact nodeLt_of_le_of_ne (hs.1 b hb) (fun heq => hn.1 (heq ▸ hb))

/-- C9: `setTranslationIssues` preserves the invariant that
`nodesWithIssues` is a duplicate-free ordered set with the non-numeric
sentinels first ("global" before "title") and the numeric section
numbers ascending; calling it with state true for an already-present id
leaves the array unchanged, and calling it with state false removes the
id if present. -/
theorem setTranslationIssues_correct (l : List NodeId) (id : NodeId) (state : Bool)
    (h : isOrderedNodes l = true) :
    isOrderedNodes (setTranslationIssues l id state) = true ∧
    (l.contains id = true → state = true → setTranslationIssues l id state = l) ∧
    (state = false → setTranslationIssues l id state = l.erase id) := by
  have hpair := (isOrderedNodes_iff_pairwise l).mp h
  have hnodup : l.Nodup := hpair.imp (fun hab => ne_of_nodeLt hab)
  refine ⟨?_, ?_, ?_⟩
  · unfold setTranslationIssues
    by_cases hmem : l.contains id
    · rw [if_pos hmem]
      cases state with
      | false =>
          simp only [Bool.not_false, if_true]
          rw [isOrderedNodes_iff_pairwise]
          exact hpair.sublist (List.erase_sublist id l)
      | true => simpa using h
    · rw [if_neg hmem]
      cases state with
      | false => simpa using h
      | true =>
          simp only [Bool.not_true, if_false]
          rw [isOrderedNodes_iff_pairwise]
          have hid : id ∉ l := by
            intro hin
            exact hmem (List.elem_eq_true_of_mem hin)
          have hnodup2 : (l ++ [id]).Nodup := by
            simp [List.nodup_append, hnodup, hid]
          have hsorted : List.Sorted nodeLeProp
              (List.insertionSort nodeLeProp (l ++ [id])) :=
            List.sorted_insertionSort nodeLeProp (l ++ [id])
          have hperm : List.Perm (List.insertionSort nodeLeProp (l ++ [id]))
              (l ++ [id]) :=
            List.perm_insertionSort nodeLeProp (l ++ [id])
          exact pairwise_lt_of_sorted_nodup _ hsorted (hperm.nodup_iff.mpr hnodup2)
  · intro hmem hstate
    subst hstate
    unfold setTranslationIssues
    rw [if_pos hmem]
    simp
  · intro hstate
    subst hstate
    unfold setTranslationIssues
    by_cases hmem : l.contains id
    · rw [if_pos hmem]
      simp
    · rw [if_neg hmem]
      have hid : id ∉ l := by
        intro hin
        exact hmem (List.elem_eq_true_of_mem hin)
      simp [List.erase_of_not_mem hid]

/-- Witness for C9 at a concrete ordered registry. -/
theorem setTranslationIssues_correct_witness :
    isOrderedNodes [NodeId.global, NodeId.section 2] = true ∧
    isOrderedNodes
      (setTranslationIssues [NodeId.global, NodeId.section 2] NodeId.title true) =
      true :=
  ⟨by decide,
   (setTranslationIssues_correct [NodeId.global, NodeId.section 2]
     NodeId.title true (by decide)).1⟩

lemma mem_of_mem_drainValidationQueue (cfg : TrackerConfig)
    (env : Int → LiveSection) (sections : Int → SectionState)
    (queue : List Int) (p : Int × Bool)
    (hp : p ∈ drainValidationQueue cfg env sections queue) : p.1 ∈ queue := by
  unfold drainValidationQueue at hp
  rcases List.mem_filterMap.mp hp with ⟨m, hm, hstep⟩
  unfold validationStep at hstep
  rcases henv : env m with _ | _ | ⟨o, h, c⟩ <;> rw [henv] at hstep
  · simp at hstep
  · simp at hstep
  · simp at hstep
    rw [← hstep.2]
    exact List.mem_reverse.mp hm

lemma drainValidationQueue_covers (cfg : TrackerConfig)
    (env : Int → LiveSection) (sections : Int → SectionState)
    (queue : List Int) (m : Int) (b : Bool)
    (hm : m ∈ queue)
    (hstep : validationStep cfg env sections m = some (m, b)) :
    (m, b) ∈ drainValidationQueue cfg env sections queue := by
  unfold drainValidationQueue
  exact List.mem_filterMap.mpr ⟨m, List.mem_reverse.mpr hm, hstep⟩

lemma processSectionChange_fresh_eq (cfg : TrackerConfig) (env : Int → LiveSection)
    (textOf : String → String) (tracker : Tracker) (n : Int)
    (origin : Option String) (html ct : String)
    (hlive : env n = LiveSection.node origin html ct)
    (hmismatch : (tracker.sections n).currentProvider ≠ origin) :
    processSectionChange cfg env textOf tracker n =
      ({ tracker with
          sections := fun m => if m = n then
              freshProcessedState cfg textOf (tracker.sections n) origin html
            else tracker.sections m,
          validationDelayQueue := [n] },
       ⟨drainValidationQueue cfg env
          (fun m => if m = n then
              freshProcessedState cfg textOf (tracker.sections n) origin html
            else tracker.sections m)
          tracker.validationDelayQueue,
        false, true⟩) := by
  unfold processSectionChange freshProcessedState
  rw [hlive]
  simp only [if_pos hmismatch]
  simp [pushToValidationQueue]

lemma freshProcessedState_currentProvider (cfg : TrackerConfig)
    (textOf : String → String) (st0 : SectionState) (origin : Option String)
    (newContent : String) :
    (freshProcessedState cfg textOf st0 origin newContent).currentProvider = origin := by
  simp only [freshProcessedState, updateSectionProgress, setUserTranslation,
    setUnmodifiedMT]
  split_ifs <;> rfl

/-- Counterexample to C6 as stated: when the section whose provider
changed is itself already sitting in the validation delay queue, the
immediate flush that `processSectionChange` performs validates this very
section, so the call does not return "without performing an immediate
MT-abuse check on this section": with section 1 queued, the flush emits
an MT-abuse decision for section 1. -/
theorem processSectionChange_fresh_validates_queued_self :
    ((processSectionChange plainConfig googleEnv idTextOf queuedTracker 1).2.validated.map
      Prod.fst) = [1] := by rfl

/-- C6 (amended): whenever `processSectionChange` observes a stored
provider different from the live CX section node's declared origin, it
sets the provider to the new origin, clears the stored user translation
(`setUserTranslation(null)`, re-capturing the live content afterwards),
immediately flushes the pending validation queue (every queued
validatable section receives an MT-abuse decision -- including this very
section if it was already queued), leaves exactly this section enqueued
for delayed validation, and returns without invoking the debounced
validation scheduler; provided the section was not already pending
validation, no MT-abuse decision is taken on it during this call. -/
theorem processSectionChange_fresh (cfg : TrackerConfig) (env : Int → LiveSection)
    (textOf : String → String) (tracker : Tracker) (n : Int)
    (origin : Option String) (html ct : String)
    (hlive : env n = LiveSection.node origin html ct)
    (hmismatch : (tracker.sections n).currentProvider ≠ origin)
    (hnotqueued : n ∉ tracker.validationDelayQueue) :
    ((processSectionChange cfg env textOf tracker n).1.sections n).currentProvider = origin ∧
    (processSectionChange cfg env textOf tracker n).2.clearedUserTranslation = true ∧
    (processSectionChange cfg env textOf tracker n).2.scheduledValidation = false ∧
    (processSectionChange cfg env textOf tracker n).1.validationDelayQueue = [n] ∧
    (∀ p ∈ (processSectionChange cfg env textOf tracker n).2.validated, p.1 ≠ n) ∧
    (∀ m, m ∈ tracker.validationDelayQueue → ∀ b,
      validationStep cfg env (processSectionChange cfg env textOf tracker n).1.sections m =
        some (m, b) →
      (m, b) ∈ (processSectionChange cfg env textOf tracker n).2.validated) := by
  rw [processSectionChange_fresh_eq cfg env textOf tracker n origin html ct hlive hmismatch]
  refine ⟨?_, rfl, rfl, rfl, ?_, ?_⟩
  · simp [freshProcessedState_currentProvider]
  · intro p hp heq
    have hmem := mem_of_mem_drainValidationQueue cfg env _ _ p hp
    rw [heq] at hmem
    exact hnotqueued hmem
  · intro m hm b hstep
    exact drainValidationQueue_covers cfg env _ _ m b hm hstep

/-- Witness for C6 (amended) on a concrete tracker with an empty
validation queue whose stored provider "Apertium" differs from the live
origin "Google". -/
theorem processSectionChange_fresh_witness :
    ((processSectionChange plainConfig googleEnv idTextOf idleTracker 1).1.sections 1).currentProvider =
      some "Google" ∧
    (processSectionChange plainConfig googleEnv idTextOf idleTracker 1).2.scheduledValidation =
      false ∧
    (processSectionChange plainConfig googleEnv idTextOf idleTracker 1).1.validationDelayQueue =
      [1] := by
  have h := processSectionChange_fresh plainConfig googleEnv idTextOf idleTracker 1
    (some "Google") "<p>hello</p>" "paragraph" rfl (by decide) (by simp [idleTracker, queuedTracker])
  exact ⟨h.1, h.2.2.1, h.2.2.2.1⟩

lemma alignLoop_steps_le (layout : ℚ → ℚ → ℚ × ℚ) :
    ∀ (fuel : Nat) (tgtH srcH : ℚ),
      (alignLoop layout fuel tgtH srcH).steps ≤ fuel := by
  intro fuel
  induction fuel with
  | zero =>
      intro tgtH srcH
      unfold alignLoop
      split_ifs <;> simp
  | succ fuel ih =>
      intro tgtH srcH
      unfold alignLoop
      split_ifs with h
      · simp
      · cases fuel with
        | zero => simp
        | succ f =>
            simp only []
            have := ih (layout (tgtH + 10) (tgtH + 10)).2 (layout (tgtH + 10) (tgtH + 10)).1
            omega

lemma alignLoop_converged (layout : ℚ → ℚ → ℚ × ℚ) :
    ∀ (fuel : Nat) (tgtH srcH : ℚ),
      (alignLoop layout fuel tgtH srcH).aborted = false →
      (alignLoop layout fuel tgtH srcH).finalTgt =
        (alignLoop layout fuel tgtH srcH).finalSrc := by
  intro fuel
  induction fuel with
  | zero =>
      intro tgtH srcH hab
      unfold alignLoop at hab ⊢
      split_ifs at hab ⊢ with h
      exact h
  | succ fuel ih =>
      intro tgtH srcH hab
      unfold alignLoop at hab ⊢
      split_ifs at hab ⊢ with h
      · exact h
      · cases fuel with
        | zero => simp at hab
        | succ f =>
            simp only [] at hab ⊢
            exact ih (layout (tgtH + 10) (tgtH + 10)).2
              (layout (tgtH + 10) (tgtH + 10)).1 hab

/-- Counterexample to C8 as stated (Scenario E): with source natural
height 100 and target natural height 70 under the ideal box layout,
`keepAlignment` does not grow the target min-height through 70, 80, 90,
100 in three 10px steps -- the target-shorter case is handled by a
single assignment of the source height (100) to the target min-height,
with zero iterations of the 10px loop; the incremental loop runs only in
the opposite case, when the source renders shorter than the target. -/
theorem keepAlignment_scenarioE_single_assignment :
    keepAlignment (boxLayout 100 70) false 0 0 =
      ⟨false, 0, 100, 0, false⟩ := by
  have h0 : boxLayout 100 70 0 0 = (100, 70) := by
    unfold boxLayout
    norm_num
  unfold keepAlignment
  rw [h0]
  norm_num

/-- C8 (amended): `keepAlignment` terminates on every invocation and
against every layout behaviour: the 10px adjustment loop runs at most 11
iterations (the `steps` counter breaks the loop at its bound of 10,
checked after each pass), after which it aborts and logs; table elements
are skipped unchanged; when the target renders shorter than the source,
the target min-height is set to the source's rendered height in a single
assignment with zero loop iterations (the incremental growth happens
only when the source renders shorter); and whenever the loop ends
without aborting, the two measured heights are equal. -/
theorem keepAlignment_terminates (layout : ℚ → ℚ → ℚ × ℚ) (isTable : Bool)
    (srcMin0 tgtMin0 : ℚ) :
    (keepAlignment layout isTable srcMin0 tgtMin0).loopSteps ≤ 11 ∧
    (isTable = true →
      keepAlignment layout isTable srcMin0 tgtMin0 =
        ⟨true, srcMin0, tgtMin0, 0, false⟩) ∧
    (isTable = false → (layout 0 tgtMin0).2 < (layout 0 tgtMin0).1 →
      keepAlignment layout isTable srcMin0 tgtMin0 =
        ⟨false, 0, (layout 0 tgtMin0).1, 0, false⟩) ∧
    (∀ (fuel : Nat) (tgtH srcH : ℚ),
      (alignLoop layout fuel tgtH srcH).aborted = false →
      (alignLoop layout fuel tgtH srcH).finalTgt =
        (alignLoop layout fuel tgtH srcH).finalSrc) := by
  refine ⟨?_, ?_, ?_, alignLoop_converged layout⟩
  · unfold keepAlignment
    cases isTable with
    | true => simp
    | false =>
        simp only [Bool.false_eq_true, if_false]
        split_ifs with h1 h2
        · simpa using alignLoop_steps_le layout 11
            (layout (layout 0 tgtMin0).2 tgtMin0).2
            (layout (layout 0 tgtMin0).2 tgtMin0).1
        · simp
        · simp
  · intro h
    subst h
    simp [keepAlignment]
  · intro hf hlt
    subst hf
    unfold keepAlignment
    rw [if_neg (by simp), if_neg (by exact not_lt.mpr (le_of_lt hlt)), if_pos hlt]

/-- Witness for C8 (amended): a table pair is skipped unchanged, and a
target shorter than the source (natural heights 20 versus 50 under the
box layout) gets min-height 50 in one assignment. -/
theorem keepAlignment_terminates_witness :
    keepAlignment (boxLayout 100 70) true 5 7 = ⟨true, 5, 7, 0, false⟩ ∧
    keepAlignment (boxLayout 50 20) false 1 2 = ⟨false, 0, 50, 0, false⟩ := by
  constructor
  · exact (keepAlignment_terminates (boxLayout 100 70) true 5 7).2.1 rfl
  · have h := (keepAlignment_terminates (boxLayout 50 20) false 1 2).2.2.1 rfl
      (by unfold boxLayout; norm_num)
    rw [h]
    unfold boxLayout
    norm_num

end CX
